import Mathlib

/-!
Verification of the AR analysis core (ar_analysis.py): invoice record
classification, days-past-due computation, and aging aggregation.

Modelling conventions:
- Calendar dates are day ordinals (Int); subtracting two dates gives the
  day gap, matching the .days of a pandas Timestamp difference.
- A missing (NaN/NaT) cell is None of an Option; monetary amounts are Rat.
- A missing Amount read by pandas is float NaN, which is truthy in Python,
  so `row['Amount'] or 0` leaves it NaN (only a present 0 is falsy), and
  any comparison against NaN, such as `nan <= 100`, is False.
- Code that would raise (ZeroDivisionError, NaT propagation into .days)
  returns Except.error / Option.none.
-/

/-- One row of the analyzer's dataframe, with the input columns and the
derived columns written by calculate_days_past_due and categorize_invoices. -/
structure Record where
  documentNumber : String
  name : String
  invoiceDate : Option Int
  dueDate : Option Int
  paymentDate : Option Int
  amount : Option Rat
  daysPastDue : Int
  category : String
  exclusionReason : String
deriving Repr, DecidableEq

/-- Configuration field self.wire_fee_threshold (default 100). -/
def wire_fee_threshold : Rat := 100

/-- Configuration field self.india_withholding_docs (default one document). -/
def india_withholding_docs : List String := ["3148"]

/-- self.exclusion_notes entry for wire_fee. -/
def wire_fee_note : String := "Remaining wire fees - excluded from AR"

/-- self.exclusion_notes entry for india_withholding. -/
def india_withholding_note : String := "India Withholding Tax - excluded from AR"

/-- Python truthiness of `a or 0` (line 93) on a possibly-NaN number:
NaN (none) is truthy and passes through unchanged; a present 0 is falsy
and is replaced by the literal 0; any other present value is returned. -/
def pyOrZero (a : Option Rat) : Option Rat :=
  match a with
  | none => none
  | some x => if x = 0 then some 0 else some x

/-- The comparison `amount <= threshold` (line 105) under IEEE semantics:
any comparison against NaN (none) is False. -/
def nanLe (a : Option Rat) (t : Rat) : Bool :=
  match a with
  | none => false
  | some x => decide (x ≤ t)

/-- days_past_due_calc of calculate_days_past_due (lines 65-76): with a
payment date, max(0, payment - due); with a payment date but a missing due
date the Timestamp difference is NaT and the computation fails (none);
without a payment date, max(0, today - due), a missing due date standing
in for today. -/
def days_past_due_calc (dueDate paymentDate : Option Int) (today : Int) :
    Option Int :=
  match paymentDate with
  | some p =>
    match dueDate with
    | some d => some (max 0 (p - d))
    | none => none
  | none =>
    let d := dueDate.getD today
    some (max 0 (today - d))

/-- The per-row body of the categorize_invoices loop (lines 91-113),
together with the initialisation of the two derived columns (lines 83-84).
Only Category and Exclusion Reason are written. -/
def categorizeRecord (r : Record) : Record :=
  let r0 : Record := { r with category := "Unknown", exclusionReason := "" }
  let amount := pyOrZero r0.amount
  if r0.paymentDate.isSome then
    { r0 with category := "Paid" }
  else if r0.documentNumber ∈ india_withholding_docs then
    { r0 with category := "Excluded", exclusionReason := india_withholding_note }
  else if nanLe amount wire_fee_threshold then
    { r0 with category := "Excluded", exclusionReason := wire_fee_note }
  else
    { r0 with category := "Collectible AR" }

/-- categorize_invoices (lines 81-113): the row-by-row loop with positional
updates is a pure map over the rows (each row's result depends only on that
row). -/
def categorize_invoices (df : List Record) : List Record :=
  df.map categorizeRecord

/-- categorize_aging (lines 143-153). -/
def categorize_aging (days_past_due : Int) : String :=
  if days_past_due = 0 then "On Time"
  else if days_past_due ≤ 30 then "1-30 Days Past Due"
  else if days_past_due ≤ 60 then "31-60 Days Past Due"
  else if days_past_due ≤ 90 then "61-90 Days Past Due"
  else "Over 90 Days Past Due"

/-- aging_order (line 164): the canonical band order. -/
def aging_order : List String :=
  ["On Time", "1-30 Days Past Due", "31-60 Days Past Due",
   "61-90 Days Past Due", "Over 90 Days Past Due"]

/-- The Order column (line 165): position of a band in aging_order. -/
def orderIndex (b : String) : Nat :=
  aging_order.findIdx (fun c => c == b)

/-- Half-to-even integer rounding, as numpy/pandas .round uses. -/
def roundHalfEven (q : Rat) : Int :=
  let f := ⌊q⌋
  if q - f < 1 / 2 then f
  else if q - f > 1 / 2 then f + 1
  else if f % 2 = 0 then f else f + 1

/-- .round(2) (line 159): round to 2 decimal places, half to even. -/
def round2 (q : Rat) : Rat :=
  (roundHalfEven (q * 100) : Rat) / 100

/-- pandas .sum() over the Amount column: NaN (missing) counts as 0. -/
def amountSum (l : List Record) : Rat :=
  (l.map (fun r => r.amount.getD 0)).sum

/-- Comparison used to model sort_values on the Order column (line 166). -/
def canonRowLE (x y : String × Rat × Nat) : Prop :=
  orderIndex x.1 ≤ orderIndex y.1

instance : DecidableRel canonRowLE := fun x y =>
  inferInstanceAs (Decidable (orderIndex x.1 ≤ orderIndex y.1))

instance : IsTotal (String × Rat × Nat) canonRowLE :=
  ⟨fun a b => Nat.le_total (orderIndex a.1) (orderIndex b.1)⟩

instance : IsTrans (String × Rat × Nat) canonRowLE :=
  ⟨fun _ _ _ h h2 => Nat.le_trans h h2⟩

/-- aging_summary (lines 155-166): groupby on the Aging Category (pandas
emits one group per distinct key, keys sorted ascending), aggregate sum and
count of Amount, round to 2 decimals, then re-sort by the canonical Order
column. Only bands with at least one row appear. -/
def aging_summary (collectible : List Record) : List (String × Rat × Nat) :=
  let labels := (collectible.map (fun r => categorize_aging r.daysPastDue)).dedup
  let keys := List.insertionSort (fun a b : String => a ≤ b) labels
  let rows := keys.map (fun b =>
    let grp := collectible.filter (fun r => categorize_aging r.daysPastDue = b)
    (b, round2 (amountSum grp), grp.length))
  List.insertionSort canonRowLE rows

/-- self.metrics (lines 129-140). -/
structure ARMetrics where
  total_payments : Rat
  collectible_ar : Rat
  excluded_total : Rat
  wire_fees : Rat
  india_withholding : Rat
  paid_count : Nat
  collectible_count : Nat
  excluded_count : Nat
  collection_rate : Rat
  oldest_days : Int
deriving Repr, DecidableEq

instance {ε α : Type} [DecidableEq ε] [DecidableEq α] : DecidableEq (Except ε α) :=
  fun x y =>
    match x, y with
    | Except.ok a, Except.ok b =>
      if h : a = b then isTrue (by rw [h]) else isFalse (by simp [h])
    | Except.error a, Except.error b =>
      if h : a = b then isTrue (by rw [h]) else isFalse (by simp [h])
    | Except.ok _, Except.error _ => isFalse (by simp)
    | Except.error _, Except.ok _ => isFalse (by simp)

/-- Naive substring containment on the character lists, modelling
pandas str.contains with a plain (non-regex-special) pattern. -/
def charsStartWith : List Char → List Char → Bool
  | [], _ => true
  | _ :: _, [] => false
  | a :: as, b :: bs => a = b && charsStartWith as bs

/-- Whether needle occurs contiguously inside haystack. -/
def charsHaveSub (needle : List Char) : List Char → Bool
  | [] => charsStartWith needle []
  | l@(_ :: rest) => charsStartWith needle l || charsHaveSub needle rest

/-- String-level substring containment (str.contains, line 133-134). -/
def strHasSub (s pat : String) : Bool :=
  charsHaveSub pat.toList s.toList

/-- calculate_ar_metrics (lines 121-166): partition by Category, build the
metrics dict and the aging summary. The collection_rate expression (line
138) divides by paid_count + collectible_count with no guard, so when that
denominator is 0 the whole computation raises ZeroDivisionError, modelled
as Except.error. -/
def calculate_ar_metrics (df : List Record) :
    Except String (ARMetrics × List (String × Rat × Nat)) :=
  let paid := df.filter (fun r => r.category = "Paid")
  let coll := df.filter (fun r => r.category = "Collectible AR")
  let excl := df.filter (fun r => r.category = "Excluded")
  if paid.length + coll.length = 0 then
    Except.error "ZeroDivisionError: division by zero"
  else
    Except.ok
      ({ total_payments := amountSum paid
         collectible_ar := amountSum coll
         excluded_total := amountSum excl
         wire_fees := amountSum (excl.filter (fun r => strHasSub r.exclusionReason "wire fees"))
         india_withholding := amountSum (excl.filter (fun r => strHasSub r.exclusionReason "India"))
         paid_count := paid.length
         collectible_count := coll.length
         excluded_count := excl.length
         collection_rate := (paid.length : Rat) / ((paid.length : Rat) + (coll.length : Rat)) * 100
         oldest_days :=
           if coll.length > 0 then
             ((coll.map (fun r => r.daysPastDue)).foldl max 0)
           else 0 },
       aging_summary coll)

/-! ## Concrete records used by witnesses and counterexamples -/

/-- A paid invoice whose document number is in the withholding set. -/
def paidWithholdingRec : Record :=
  { documentNumber := "3148", name := "IndiaCo", invoiceDate := some 100,
    dueDate := some 120, paymentDate := some 130, amount := some 500,
    daysPastDue := 10, category := "Unknown", exclusionReason := "" }

/-- An unpaid withholding document with amount below the wire-fee threshold. -/
def smallWithholdingRec : Record :=
  { documentNumber := "3148", name := "IndiaCo", invoiceDate := some 100,
    dueDate := some 120, paymentDate := none, amount := some 50,
    daysPastDue := 40, category := "Unknown", exclusionReason := "" }

/-- An unpaid, non-withholding record with a missing amount. -/
def missingAmountRec : Record :=
  { documentNumber := "1001", name := "Acme", invoiceDate := some 100,
    dueDate := some 120, paymentDate := none, amount := none,
    daysPastDue := 40, category := "Unknown", exclusionReason := "" }

/-- An unpaid, non-withholding record above the wire-fee threshold. -/
def collectibleRec : Record :=
  { documentNumber := "1003", name := "Acme", invoiceDate := some 100,
    dueDate := some 120, paymentDate := none, amount := some 2000,
    daysPastDue := 151, category := "Unknown", exclusionReason := "" }

/-- A one-row dataset classified by the program: the record is unpaid,
non-withholding, above the threshold, hence Collectible AR in band
Over 90. -/
def oneCollectibleDf : List Record := categorize_invoices [collectibleRec]

/-- The aging table the aggregator emits for a classified dataset (empty
when the metrics computation raises before building it). -/
def agingTableOf (df : List Record) : List (String × Rat × Nat) :=
  match calculate_ar_metrics df with
  | Except.ok (_, t) => t
  | Except.error _ => []

/-- The metrics the aggregator produces for oneCollectibleDf. -/
def oneCollectibleMetrics : ARMetrics :=
  { total_payments := 0, collectible_ar := 2000, excluded_total := 0,
    wire_fees := 0, india_withholding := 0, paid_count := 0,
    collectible_count := 1, excluded_count := 0, collection_rate := 0,
    oldest_days := 151 }

/-- The aging table the aggregator produces for oneCollectibleDf. -/
def oneCollectibleTable : List (String × Rat × Nat) :=
  [("Over 90 Days Past Due", 2000, 1)]

/-! ## Claims -/

/-- Python `x or 0` never changes the value of an Amount cell: NaN (none)
is truthy and a present 0 is replaced by 0 itself. -/
theorem pyOrZero_eq (a : Option Rat) : pyOrZero a = a := by
  cases a with
  | none => rfl
  | some x =>
    simp only [pyOrZero]
    split_ifs with h
    · rw [h]
    · rfl

/-- C1: the classifier assigns the category by the first matching rule of
the fixed priority order: payment present → Paid; else withholding
document → Excluded with the withholding reason; else a present amount at
most the wire-fee threshold → Excluded with the wire-fee reason; else
Collectible AR (a present amount above the threshold, or a missing amount,
whose NaN comparison with the threshold is False). -/
theorem categorize_priority (r : Record) :
    (r.paymentDate.isSome → (categorizeRecord r).category = "Paid") ∧
    (r.paymentDate = none → r.documentNumber ∈ india_withholding_docs →
      (categorizeRecord r).category = "Excluded" ∧
      (categorizeRecord r).exclusionReason = india_withholding_note) ∧
    (r.paymentDate = none → r.documentNumber ∉ india_withholding_docs →
      ∀ x, r.amount = some x → x ≤ wire_fee_threshold →
      (categorizeRecord r).category = "Excluded" ∧
      (categorizeRecord r).exclusionReason = wire_fee_note) ∧
    (r.paymentDate = none → r.documentNumber ∉ india_withholding_docs →
      ∀ x, r.amount = some x → ¬ x ≤ wire_fee_threshold →
      (categorizeRecord r).category = "Collectible AR") ∧
    (r.paymentDate = none → r.documentNumber ∉ india_withholding_docs →
      r.amount = none →
      (categorizeRecord r).category = "Collectible AR") := by
  refine ⟨?_, ?_, ?_, ?_, ?_⟩
  · intro h1
    simp [categorizeRecord, h1]
  · intro h1 h2
    simp [categorizeRecord, h1, h2]
  · intro h1 h2 x hx h3
    simp [categorizeRecord, pyOrZero_eq, nanLe, h1, h2, hx, h3]
  · intro h1 h2 x hx h3
    simp [categorizeRecord, pyOrZero_eq, nanLe, h1, h2, hx, h3]
  · intro h1 h2 h3
    simp [categorizeRecord, pyOrZero_eq, nanLe, h1, h2, h3]

/-- C1 witness: a paid invoice with a withholding document number is Paid,
and an unpaid withholding document below the threshold gets the
withholding reason. -/
theorem categorize_priority_witness :
    (categorizeRecord paidWithholdingRec).category = "Paid" ∧
    (categorizeRecord smallWithholdingRec).category = "Excluded" ∧
    (categorizeRecord smallWithholdingRec).exclusionReason = india_withholding_note :=
  ⟨(categorize_priority paidWithholdingRec).1 (by decide),
   ((categorize_priority smallWithholdingRec).2.1 (by decide) (by decide)).1,
   ((categorize_priority smallWithholdingRec).2.1 (by decide) (by decide)).2⟩

/-- C3: days past due is max(0, payment - due) when a payment date is
present, max(0, today - due) when not, zero when unpaid with no due date,
and non-negative whenever it is produced. -/
theorem days_past_due_spec (dueDate paymentDate : Option Int) (today r : Int)
    (h : days_past_due_calc dueDate paymentDate today = some r) :
    (∀ p d, paymentDate = some p → dueDate = some d → r = max 0 (p - d)) ∧
    (paymentDate = none → ∀ d, dueDate = some d → r = max 0 (today - d)) ∧
    (paymentDate = none → dueDate = none → r = 0) ∧
    0 ≤ r := by
  cases paymentDate with
  | some p =>
    cases dueDate with
    | some d =>
      simp only [days_past_due_calc, Option.some.injEq] at h
      refine ⟨?_, ?_, ?_, ?_⟩
      · intro p1 d1 hp hd
        simp only [Option.some.injEq] at hp hd
        subst hp; subst hd; exact h.symm
      · intro hc; exact absurd hc (by simp)
      · intro hc; exact absurd hc (by simp)
      · rw [← h]; exact le_max_left 0 (p - d)
    | none => simp [days_past_due_calc] at h
  | none =>
    cases dueDate with
    | some d =>
      simp only [days_past_due_calc, Option.getD, Option.some.injEq] at h
      refine ⟨?_, ?_, ?_, ?_⟩
      · intro p1 d1 hp; exact absurd hp (by simp)
      · intro _ d1 hd
        simp only [Option.some.injEq] at hd
        subst hd; exact h.symm
      · intro _ hc; exact absurd hc (by simp)
      · rw [← h]; exact le_max_left 0 (today - d)
    | none =>
      simp only [days_past_due_calc, Option.getD, Option.some.injEq] at h
      refine ⟨?_, ?_, ?_, ?_⟩
      · intro p1 d1 hp; exact absurd hp (by simp)
      · intro _ d1 hd; exact absurd hd (by simp)
      · intro _ _; omega
      · omega

/-- C3 witness: a payment 10 days after the due date gives 10 days past
due, which matches max 0 of the gap and is non-negative. -/
theorem days_past_due_spec_witness :
    days_past_due_calc (some 15) (some 25) 0 = some 10 ∧
    (10 : Int) = max 0 (25 - 15) ∧ (0 : Int) ≤ 10 :=
  ⟨rfl,
   (days_past_due_spec (some 15) (some 25) 0 10 rfl).1 25 15 rfl rfl,
   (days_past_due_spec (some 15) (some 25) 0 10 rfl).2.2.2⟩

/-- C4: every classified record carries one of the three final categories
(Unknown never survives), and the exclusion reason is non-empty exactly on
Excluded records. -/
theorem classified_invariants (df : List Record) (r : Record)
    (h : r ∈ categorize_invoices df) :
    (r.category = "Paid" ∨ r.category = "Collectible AR" ∨ r.category = "Excluded") ∧
    (r.exclusionReason ≠ "" ↔ r.category = "Excluded") := by
  rcases List.mem_map.mp h with ⟨s, _, rfl⟩
  simp only [categorizeRecord]
  split_ifs <;> exact ⟨by simp, by simp [india_withholding_note, wire_fee_note]⟩

/-- C4 witness: invariants hold on a classified concrete dataset. -/
theorem classified_invariants_witness :
    ((categorizeRecord collectibleRec).category = "Paid" ∨
     (categorizeRecord collectibleRec).category = "Collectible AR" ∨
     (categorizeRecord collectibleRec).category = "Excluded") ∧
    ((categorizeRecord collectibleRec).exclusionReason ≠ "" ↔
     (categorizeRecord collectibleRec).category = "Excluded") :=
  classified_invariants [collectibleRec] (categorizeRecord collectibleRec) (by simp [categorize_invoices])

/-- C5: the aging band is determined by days past due with inclusive upper
edges: 0 is On Time, 1-30, 31-60, 61-90, and over 90. -/
theorem aging_band_boundaries (d : Int) :
    (d = 0 → categorize_aging d = "On Time") ∧
    (1 ≤ d → d ≤ 30 → categorize_aging d = "1-30 Days Past Due") ∧
    (31 ≤ d → d ≤ 60 → categorize_aging d = "31-60 Days Past Due") ∧
    (61 ≤ d → d ≤ 90 → categorize_aging d = "61-90 Days Past Due") ∧
    (90 < d → categorize_aging d = "Over 90 Days Past Due") := by
  refine ⟨?_, ?_, ?_, ?_, ?_⟩ <;> intros <;> unfold categorize_aging <;>
    split_ifs <;> first | rfl | omega

/-- C5 witness: the boundary values 30, 31, 90, 91 land in the bands the
claim names. -/
theorem aging_band_boundaries_witness :
    categorize_aging 30 = "1-30 Days Past Due" ∧
    categorize_aging 31 = "31-60 Days Past Due" ∧
    categorize_aging 90 = "61-90 Days Past Due" ∧
    categorize_aging 91 = "Over 90 Days Past Due" :=
  ⟨(aging_band_boundaries 30).2.1 (by decide) (by decide),
   (aging_band_boundaries 31).2.2.1 (by decide) (by decide),
   (aging_band_boundaries 90).2.2.2.1 (by decide) (by decide),
   (aging_band_boundaries 91).2.2.2.2 (by decide)⟩

/-- C6 counterexample: the concrete unpaid, non-withholding record with a
missing amount is NOT classified Excluded with the wire-fee reason — NaN
is truthy, so `row['Amount'] or 0` keeps NaN, and `NaN <= 100` is False,
so the wire-fee branch is never taken. -/
theorem missing_amount_not_wire_fee_cex :
    ¬ ((categorizeRecord missingAmountRec).category = "Excluded" ∧
       (categorizeRecord missingAmountRec).exclusionReason = wire_fee_note) := by
  decide

/-- C6 amended: an unpaid, non-withholding record with a missing amount is
classified Collectible AR with an empty exclusion reason, never Excluded:
the missing amount stays NaN under `or 0` and its comparison with the
wire-fee threshold is False, so classification falls through to the final
branch. -/
theorem missing_amount_collectible (r : Record) (h1 : r.paymentDate = none)
    (h2 : r.documentNumber ∉ india_withholding_docs) (h3 : r.amount = none) :
    (categorizeRecord r).category = "Collectible AR" ∧
    (categorizeRecord r).exclusionReason = "" ∧
    (categorizeRecord r).category ≠ "Excluded" := by
  refine ⟨?_, ?_, ?_⟩ <;> simp [categorizeRecord, pyOrZero, nanLe, h1, h2, h3]

/-- C6 witness: the amended behaviour checked on the concrete
missing-amount record. -/
theorem missing_amount_collectible_witness :
    (categorizeRecord missingAmountRec).category = "Collectible AR" ∧
    (categorizeRecord missingAmountRec).exclusionReason = "" ∧
    (categorizeRecord missingAmountRec).category ≠ "Excluded" :=
  missing_amount_collectible missingAmountRec (by decide) (by decide) (by decide)

/-- C10: classification writes only Category and Exclusion Reason: record
count is preserved, and at every position all input fields and the
previously computed days past due are unchanged. -/
theorem categorize_frame (df : List Record) (i : Nat) (h : i < df.length)
    (h2 : i < (categorize_invoices df).length) :
    (categorize_invoices df).length = df.length ∧
    ((categorize_invoices df).get ⟨i, h2⟩).documentNumber = (df.get ⟨i, h⟩).documentNumber ∧
    ((categorize_invoices df).get ⟨i, h2⟩).name = (df.get ⟨i, h⟩).name ∧
    ((categorize_invoices df).get ⟨i, h2⟩).invoiceDate = (df.get ⟨i, h⟩).invoiceDate ∧
    ((categorize_invoices df).get ⟨i, h2⟩).dueDate = (df.get ⟨i, h⟩).dueDate ∧
    ((categorize_invoices df).get ⟨i, h2⟩).paymentDate = (df.get ⟨i, h⟩).paymentDate ∧
    ((categorize_invoices df).get ⟨i, h2⟩).amount = (df.get ⟨i, h⟩).amount ∧
    ((categorize_invoices df).get ⟨i, h2⟩).daysPastDue = (df.get ⟨i, h⟩).daysPastDue := by
  have key : (categorize_invoices df).get ⟨i, h2⟩ = categorizeRecord (df.get ⟨i, h⟩) := by
    simp [categorize_invoices]
  rw [key]
  refine ⟨by simp [categorize_invoices], ?_, ?_, ?_, ?_, ?_, ?_, ?_⟩ <;>
    (simp only [categorizeRecord]; split_ifs <;> rfl)

/-- C10 witness: frame condition checked at position 0 of a one-row
dataset. -/
theorem categorize_frame_witness :
    ((categorize_invoices [collectibleRec]).get ⟨0, by simp [categorize_invoices]⟩).amount =
      ([collectibleRec].get ⟨0, by simp⟩).amount :=
  (categorize_frame [collectibleRec] 0 (by simp) (by simp [categorize_invoices])).2.2.2.2.2.2.1

/-- C2 (code bug): when paid_count + collectible_count is 0 the
collection_rate expression divides by zero, so calculate_ar_metrics raises
instead of returning collection_rate = 0. -/
theorem collection_rate_zero_denominator (df : List Record)
    (h : (df.filter (fun r => r.category = "Paid")).length +
         (df.filter (fun r => r.category = "Collectible AR")).length = 0) :
    calculate_ar_metrics df = Except.error "ZeroDivisionError: division by zero" := by
  unfold calculate_ar_metrics
  simp [h]

/-- C2 witness: the empty dataset makes aggregation fail. -/
theorem collection_rate_zero_denominator_witness :
    calculate_ar_metrics [] = Except.error "ZeroDivisionError: division by zero" :=
  collection_rate_zero_denominator [] (by decide)

/-! ## Helper lemmas about the aging aggregation -/

/-- Every label categorize_aging emits is one of the five canonical bands. -/
theorem categorize_aging_mem (d : Int) : categorize_aging d ∈ aging_order := by
  unfold categorize_aging aging_order
  split_ifs <;> simp

/-- The Order column separates the five canonical bands. -/
theorem orderIndex_inj_on : ∀ x ∈ aging_order, ∀ y ∈ aging_order,
    orderIndex x = orderIndex y → x = y := by decide

/-- Splitting a sum over a list into the part matching a predicate and the
rest. -/
theorem sum_split (p : Record → Bool) (f : Record → Rat) (l : List Record) :
    ((l.filter p).map f).sum + ((l.filter (fun a => ! p a)).map f).sum =
      (l.map f).sum := by
  induction l with
  | nil => simp
  | cons a t ih =>
    by_cases h : p a
    · simp only [List.filter_cons, h, Bool.not_true, if_pos, if_neg,
        List.map_cons, List.sum_cons, Bool.false_eq_true, ite_false, ite_true]
      rw [← ih]; ring
    · have h2 : p a = false := by simpa using h
      simp only [List.filter_cons, h2, Bool.not_false, List.map_cons,
        List.sum_cons, Bool.false_eq_true, ite_false, ite_true]
      rw [← ih]; ring

/-- Summing a quantity fiber-by-fiber over a duplicate-free list of keys
covering every element gives the total sum. -/
theorem sum_fiberwise (key : Record → String) (f : Record → Rat) :
    ∀ (keys : List String), keys.Nodup → ∀ (l : List Record),
      (∀ r ∈ l, key r ∈ keys) →
      (keys.map (fun b => ((l.filter (fun r => key r = b)).map f).sum)).sum =
        (l.map f).sum := by
  intro keys
  induction keys with
  | nil =>
    intro _ l hcov
    cases l with
    | nil => simp
    | cons a t => exact absurd (hcov a (List.mem_cons_self a t)) (by simp)
  | cons b keys ih =>
    intro hnd l hcov
    rw [List.nodup_cons] at hnd
    obtain ⟨hb, hnd⟩ := hnd
    simp only [List.map_cons, List.sum_cons]
    have hrest : ∀ b1 ∈ keys,
        ((l.filter (fun r => key r = b1)).map f).sum =
          (((l.filter (fun r => ! (decide (key r = b)))).filter
              (fun r => key r = b1)).map f).sum := by
      intro b1 hb1
      have hne : b1 ≠ b := fun hc => hb (hc ▸ hb1)
      congr 2
      rw [List.filter_filter]
      apply List.filter_congr
      intro r _
      by_cases h : key r = b1
      · have h3 : ¬ (key r = b) := fun hc => hne (by rw [← h, hc])
        simp [h, h3, hne]
      · simp [h]
    rw [List.map_congr_left hrest,
      ih hnd (l.filter (fun r => ! (decide (key r = b)))) ?_]
    · exact sum_split (fun r => decide (key r = b)) f l
    · intro r hr
      rw [List.mem_filter] at hr
      obtain ⟨hrl, hrb⟩ := hr
      have := hcov r hrl
      rw [List.mem_cons] at this
      rcases this with h | h
      · exfalso; simp [h] at hrb
      · exact h

/-- Pointwise absolute bounds add up over a list. -/
theorem sum_sub_sum_le (f g : String → Rat) (c : Rat) :
    ∀ l : List String, (∀ b ∈ l, |f b - g b| ≤ c) →
      |(l.map f).sum - (l.map g).sum| ≤ (l.length : Rat) * c := by
  intro l
  induction l with
  | nil => intro _; simp
  | cons a t ih =>
    intro h
    have h1 := h a (List.mem_cons_self a t)
    have h2 := ih (fun b hb => h b (List.mem_cons_of_mem a hb))
    simp only [List.map_cons, List.sum_cons, List.length_cons]
    push_cast
    have e : f a + (t.map f).sum - (g a + (t.map g).sum) =
        (f a - g a) + ((t.map f).sum - (t.map g).sum) := by ring
    rw [e]
    have habs := abs_add (f a - g a) ((t.map f).sum - (t.map g).sum)
    linarith

/-- Half-to-even rounding moves a rational by at most one half. -/
theorem round_half_even_err (q : Rat) : |(roundHalfEven q : Rat) - q| ≤ 1 / 2 := by
  have h1 : ((⌊q⌋ : Rat)) ≤ q := Int.floor_le q
  have h2 : q < (⌊q⌋ : Rat) + 1 := Int.lt_floor_add_one q
  simp only [roundHalfEven]
  split_ifs with ha hb hc
  · rw [abs_sub_comm, abs_of_nonneg (by linarith)]; linarith
  · push_cast
    rw [abs_of_nonneg (by linarith)]
    linarith
  · push_neg at ha hb
    rw [abs_sub_comm, abs_of_nonneg (by linarith)]; linarith
  · push_neg at ha hb
    push_cast
    rw [abs_of_nonneg (by linarith)]
    linarith

/-- Rounding to two decimals moves a rational by at most 1/200. -/
theorem round2_err (q : Rat) : |round2 q - q| ≤ 1 / 200 := by
  have h := round_half_even_err (q * 100)
  unfold round2
  have e : ((roundHalfEven (q * 100) : Rat)) / 100 - q =
      ((roundHalfEven (q * 100) : Rat) - q * 100) / 100 := by ring
  rw [e, abs_div, show |(100 : Rat)| = 100 from by norm_num]
  linarith

/-- Two lists that are strictly increasing under a numeric key and have the
same members are equal. -/
theorem eq_of_pairwise_lt_mem (f : String → Nat) :
    ∀ (l1 l2 : List String),
      l1.Pairwise (fun x y => f x < f y) → l2.Pairwise (fun x y => f x < f y) →
      (∀ x, x ∈ l1 ↔ x ∈ l2) → l1 = l2 := by
  intro l1
  induction l1 with
  | nil =>
    intro l2 _ _ hmem
    cases l2 with
    | nil => rfl
    | cons b t => exact absurd ((hmem b).mpr (List.mem_cons_self b t)) (by simp)
  | cons a t ih =>
    intro l2 h1 h2 hmem
    cases l2 with
    | nil => exact absurd ((hmem a).mp (List.mem_cons_self a t)) (by simp)
    | cons b t2 =>
      rw [List.pairwise_cons] at h1 h2
      obtain ⟨ha, h1t⟩ := h1
      obtain ⟨hb, h2t⟩ := h2
      have hab : a = b := by
        have haIn : a ∈ b :: t2 := (hmem a).mp (List.mem_cons_self a t)
        rcases List.mem_cons.mp haIn with h | h
        · exact h
        · exfalso
          have hba : f b < f a := hb a h
          have hbIn : b ∈ a :: t := (hmem b).mpr (List.mem_cons_self b t2)
          rcases List.mem_cons.mp hbIn with h3 | h3
          · rw [h3] at hba; exact absurd hba (lt_irrefl _)
          · exact absurd (Nat.lt_trans hba (ha b h3)) (lt_irrefl _)
      subst hab
      have htails : t = t2 := by
        apply ih t2 h1t h2t
        intro x
        constructor
        · intro hx
          have hxIn : x ∈ a :: t2 := (hmem x).mp (List.mem_cons_of_mem a hx)
          rcases List.mem_cons.mp hxIn with h3 | h3
          · have hlt := ha x hx
            rw [h3] at hlt
            exact absurd hlt (lt_irrefl _)
          · exact h3
        · intro hx
          have hlt := hb x hx
          have hxIn : x ∈ a :: t := (hmem x).mpr (List.mem_cons_of_mem a hx)
          rcases List.mem_cons.mp hxIn with h3 | h3
          · rw [h3] at hlt
            exact absurd hlt (lt_irrefl _)
          · exact h3
      rw [htails]

/-- The labels of the aging summary are a permutation of the distinct band
labels of the collectible rows. -/
theorem aging_summary_labels_perm (collectible : List Record) :
    ((aging_summary collectible).map (fun e => e.1)).Perm
      ((collectible.map (fun r => categorize_aging r.daysPastDue)).dedup) := by
  simp only [aging_summary]
  refine ((List.perm_insertionSort canonRowLE _).map (fun e => e.1)).trans ?_
  rw [List.map_map]
  have hcomp : ((fun e : String × Rat × Nat => e.1) ∘
      (fun b => (b,
        round2 (amountSum (collectible.filter
          (fun r => categorize_aging r.daysPastDue = b))),
        (collectible.filter (fun r => categorize_aging r.daysPastDue = b)).length)))
      = id := rfl
  rw [hcomp, List.map_id]
  exact List.perm_insertionSort _ _

/-- A band label occurs in the aging summary exactly when some collectible
row falls in that band. -/
theorem mem_aging_summary_labels (collectible : List Record) (x : String) :
    x ∈ (aging_summary collectible).map (fun e => e.1) ↔
      ∃ r ∈ collectible, categorize_aging r.daysPastDue = x := by
  rw [(aging_summary_labels_perm collectible).mem_iff, List.mem_dedup,
    List.mem_map]

/-- The aging summary lists every band at most once. -/
theorem nodup_aging_summary_labels (collectible : List Record) :
    ((aging_summary collectible).map (fun e => e.1)).Nodup :=
  ((aging_summary_labels_perm collectible).nodup_iff).mpr (List.nodup_dedup _)

/-- The aging summary labels come out weakly sorted by the Order column. -/
theorem pairwise_aging_summary_labels (collectible : List Record) :
    ((aging_summary collectible).map (fun e => e.1)).Pairwise
      (fun x y => orderIndex x ≤ orderIndex y) := by
  simp only [aging_summary]
  rw [List.pairwise_map]
  exact List.sorted_insertionSort canonRowLE _

/-- C7: the aging table is sorted in the fixed canonical band order — its
label column equals aging_order restricted to the bands that occur among
the collectible rows, whatever order grouping produced. -/
theorem aging_table_canonical_order (collectible : List Record) :
    (aging_summary collectible).map (fun e => e.1) =
      aging_order.filter
        (fun b => collectible.any (fun r => categorize_aging r.daysPastDue = b)) := by
  have hmemL := mem_aging_summary_labels collectible
  apply eq_of_pairwise_lt_mem orderIndex
  · have h1 := pairwise_aging_summary_labels collectible
    have h2 : ((aging_summary collectible).map (fun e => e.1)).Pairwise
        (fun x y => x ≠ y) := nodup_aging_summary_labels collectible
    refine List.Pairwise.imp_of_mem ?_ (h1.and h2)
    intro a b ha hb hab
    have haO : a ∈ aging_order := by
      rcases (hmemL a).mp ha with ⟨r, _, hr⟩
      rw [← hr]; exact categorize_aging_mem _
    have hbO : b ∈ aging_order := by
      rcases (hmemL b).mp hb with ⟨r, _, hr⟩
      rw [← hr]; exact categorize_aging_mem _
    rcases hab with ⟨hle, hne⟩
    rcases lt_or_eq_of_le hle with h | h
    · exact h
    · exact absurd (orderIndex_inj_on a haO b hbO h) hne
  · have h5 : aging_order.Pairwise (fun x y => orderIndex x < orderIndex y) := by
      decide
    exact h5.filter _
  · intro x
    rw [hmemL x, List.mem_filter]
    constructor
    · rintro ⟨r, hr, hx⟩
      refine ⟨by rw [← hx]; exact categorize_aging_mem _, ?_⟩
      simp only [List.any_eq_true]
      exact ⟨r, hr, by simp [hx]⟩
    · rintro ⟨_, hany⟩
      simp only [List.any_eq_true] at hany
      rcases hany with ⟨r, hr, hx⟩
      exact ⟨r, hr, by simpa using hx⟩

/-- C9 counterexample: on a classified one-record dataset whose only
collectible row is over 90 days past due, the emitted aging table has no
entry for the other four bands — empty bands are absent, not zero rows. -/
theorem aging_table_missing_band_cex :
    ¬ (∀ b ∈ aging_order, ∃ e ∈ agingTableOf oneCollectibleDf, e.1 = b) := by
  decide

/-- C9 amended: the aging table contains an entry for a band exactly when
at least one collectible row falls in that band; bands with zero matching
rows are omitted from the table rather than emitted with zero totals. -/
theorem aging_table_only_present_bands (collectible : List Record) (b : String) :
    (∃ e ∈ aging_summary collectible, e.1 = b) ↔
      ∃ r ∈ collectible, categorize_aging r.daysPastDue = b := by
  have h := mem_aging_summary_labels collectible b
  rw [List.mem_map] at h
  exact h

/-- The aging-table amounts over a duplicate-free covering key list differ
from the raw collectible total only by the per-band rounding. -/
theorem rows_sum_bound (coll : List Record) (keys : List String)
    (hnd : keys.Nodup)
    (hcov : ∀ r ∈ coll, categorize_aging r.daysPastDue ∈ keys) :
    |((keys.map (fun b => round2 (amountSum (coll.filter
        (fun r => categorize_aging r.daysPastDue = b))))).sum) - amountSum coll| ≤
      (keys.length : Rat) * (1 / 200) := by
  have hfib := sum_fiberwise (fun r => categorize_aging r.daysPastDue)
    (fun r => r.amount.getD 0) keys hnd coll hcov
  have hptw : ∀ b ∈ keys,
      |round2 (amountSum (coll.filter (fun r => categorize_aging r.daysPastDue = b))) -
        amountSum (coll.filter (fun r => categorize_aging r.daysPastDue = b))| ≤
        1 / 200 := fun b _ => round2_err _
  have hsum := sum_sub_sum_le
    (fun b => round2 (amountSum (coll.filter (fun r => categorize_aging r.daysPastDue = b))))
    (fun b => amountSum (coll.filter (fun r => categorize_aging r.daysPastDue = b)))
    (1 / 200) keys hptw
  simp only [amountSum] at hsum hfib ⊢
  rw [hfib] at hsum
  exact hsum

/-- The summed (rounded) band totals of the aging summary stay within the
accumulated rounding tolerance of the raw collectible total. -/
theorem aging_summary_total_bound (coll : List Record) :
    |(((aging_summary coll).map (fun e => e.2.1)).sum) - amountSum coll| ≤
      ((aging_summary coll).length : Rat) * (1 / 200) := by
  simp only [aging_summary]
  have hp := List.perm_insertionSort canonRowLE
    ((List.insertionSort (fun a b : String => a ≤ b)
        ((coll.map (fun r => categorize_aging r.daysPastDue)).dedup)).map
      (fun b =>
        (b, round2 (amountSum (coll.filter (fun r => categorize_aging r.daysPastDue = b))),
          (coll.filter (fun r => categorize_aging r.daysPastDue = b)).length)))
  rw [(hp.map (fun e => e.2.1)).sum_eq, hp.length_eq, List.map_map,
    List.length_map]
  have hnd : (List.insertionSort (fun a b : String => a ≤ b)
      ((coll.map (fun r => categorize_aging r.daysPastDue)).dedup)).Nodup :=
    ((List.perm_insertionSort _ _).nodup_iff).mpr (List.nodup_dedup _)
  have hcov : ∀ r ∈ coll, categorize_aging r.daysPastDue ∈
      List.insertionSort (fun a b : String => a ≤ b)
        ((coll.map (fun r => categorize_aging r.daysPastDue)).dedup) := by
    intro r hr
    rw [List.mem_insertionSort, List.mem_dedup, List.mem_map]
    exact ⟨r, hr, rfl⟩
  exact rows_sum_bound coll _ hnd hcov

/-- C8: whenever the aggregator succeeds, the sum of the per-band Total
Amount values of the aging table equals the reported total collectible
amount within the rounding tolerance of 1/200 per band. -/
theorem aging_totals_match_collectible (df : List Record) (m : ARMetrics)
    (t : List (String × Rat × Nat))
    (h : calculate_ar_metrics df = Except.ok (m, t)) :
    |((t.map (fun e => e.2.1)).sum) - m.collectible_ar| ≤
      (t.length : Rat) * (1 / 200) := by
  simp only [calculate_ar_metrics] at h
  split at h
  · exact absurd h (by simp)
  · rw [Except.ok.injEq, Prod.mk.injEq] at h
    obtain ⟨hm, ht⟩ := h
    rw [← hm, ← ht]
    exact aging_summary_total_bound _

/-- C8 witness: on the classified one-collectible dataset the aggregator
succeeds and the band totals match the collectible total within tolerance. -/
theorem aging_totals_match_collectible_witness :
    calculate_ar_metrics oneCollectibleDf =
      Except.ok (oneCollectibleMetrics, oneCollectibleTable) ∧
    |((oneCollectibleTable.map (fun e => e.2.1)).sum) -
        oneCollectibleMetrics.collectible_ar| ≤
      (oneCollectibleTable.length : Rat) * (1 / 200) :=
  by
  have h : calculate_ar_metrics oneCollectibleDf =
      Except.ok (oneCollectibleMetrics, oneCollectibleTable) := by
    simp only [oneCollectibleDf, categorize_invoices, List.map_cons, List.map_nil,
      categorizeRecord, collectibleRec, calculate_ar_metrics]
    norm_num +decide [india_withholding_docs, wire_fee_threshold, pyOrZero, nanLe,
      aging_summary, amountSum, categorize_aging, round2, roundHalfEven,
      oneCollectibleMetrics, oneCollectibleTable, strHasSub, charsHaveSub,
      charsStartWith, List.insertionSort, List.orderedInsert, List.dedup,
      List.pwFilter, canonRowLE, orderIndex, aging_order]
  exact ⟨h, aging_totals_match_collectible oneCollectibleDf oneCollectibleMetrics
    oneCollectibleTable h⟩
